import Mathlib

/-!
Verification of the text-analysis orchestration layer of the IsItClear
browser extension.  The definitions below are shallow embeddings of the
JavaScript sources:

* `src/lib/services/ai-service.js`   (class `AIService`)
* `src/lib/services/text-analyzer.js` (class `TextAnalyzer`)
* `src/lib/models/clarity-improvement.js` (`ChangeDetail`, `ClarityImprovement`)
* `src/lib/models/text-content.js`   (`TextContent` state machine)

JavaScript strings are modelled as Lean `String` (a wrapper around
`List Char`), JavaScript numbers as `ℚ` (for scores, ratios and times)
or `Nat`/`Int` (for lengths and positions), and thrown exceptions as
`Except String`.
-/

namespace IsItClear

/-! ### JavaScript string primitives

`jsSplitWs` models `String.prototype.split(/\s+/)`: the string is cut at
maximal runs of whitespace.  As in JavaScript, a leading run of
whitespace contributes an empty first token and a trailing run an empty
last token, and splitting the empty string yields `[""]`. -/

mutual

/-- Inner loop of `split(/\s+/)` while inside a (reversed) token `acc`. -/
def splitWsAux : List Char → List Char → List (List Char)
  | [], acc => [acc.reverse]
  | c :: rest, acc =>
    if c.isWhitespace then acc.reverse :: splitWsAfterWs rest
    else splitWsAux rest (c :: acc)

/-- Inner loop of `split(/\s+/)` while skipping a whitespace run. -/
def splitWsAfterWs : List Char → List (List Char)
  | [] => [[]]
  | c :: rest =>
    if c.isWhitespace then splitWsAfterWs rest
    else splitWsAux rest [c]

end

/-- `text.split(/\s+/)` on the character list of a JavaScript string. -/
def jsSplitWs (l : List Char) : List (List Char) :=
  splitWsAux l []

/-- `String.prototype.trim()`: drop whitespace from both ends. -/
def jsTrim (l : List Char) : List Char :=
  ((l.dropWhile Char.isWhitespace).reverse.dropWhile Char.isWhitespace).reverse

/-- `String.prototype.toLowerCase()` (character-wise, as for ASCII text). -/
def jsLower (l : List Char) : List Char :=
  l.map Char.toLower

/-- Word count as computed in `AIService._calculateConfidenceScore`:
`text.trim().split(/\s+/).length`. -/
def wordCountCode (t : String) : Nat :=
  (jsSplitWs (jsTrim t.data)).length

/-- The word-count delta ratio of `AIService._calculateConfidenceScore`:
`Math.abs(improvedWords - originalWords) / originalWords`. -/
def lengthRatioCode (o i : String) : ℚ :=
  (((wordCountCode i : Int) - (wordCountCode o : Int)).natAbs : ℚ) / (wordCountCode o : ℚ)

/-- `AIService._calculateSimilarity`: word-overlap similarity between the
deduplicated lowercase token sets of the two texts (tokens produced by
`split(/\s+/)` without trimming, exactly as in the source). -/
def jsSimilarity (t1 t2 : String) : ℚ :=
  let w1 := (jsSplitWs (jsLower t1.data)).dedup
  let w2 := (jsSplitWs (jsLower t2.data)).dedup
  let inter := w1.filter (fun w => w ∈ w2)
  let union := (w1 ++ w2).dedup
  (inter.length : ℚ) / (union.length : ℚ)

/-- `Math.min` on rationals, written as an executable conditional (it
agrees with `min`, see `jsMin_eq_min`). -/
def jsMin (a b : ℚ) : ℚ := if a ≤ b then a else b

/-- `AIService._calculateConfidenceScore`, embedded statement by statement:
returns `0` for a falsy (empty) argument, otherwise starts from the base
confidence `0.7`, adds `0.1` for a word-count delta ratio above `0.1`,
adds `0.2` for a similarity strictly between `0.3` and `0.9`, and caps
the result at `1.0`. -/
def calculateConfidenceScore (o i : String) : ℚ :=
  if o = "" ∨ i = "" then 0
  else
    let lengthRatio := lengthRatioCode o i
    let similarityScore := jsSimilarity o i
    let confidence : ℚ := 0.7
    let confidence := if lengthRatio > 0.1 then confidence + 0.1 else confidence
    let confidence :=
      if similarityScore > 0.3 ∧ similarityScore < 0.9 then confidence + 0.2 else confidence
    jsMin confidence 1

/-! Spec-side definitions, written from the specification's words for the
confidence heuristic (§4.2 step 5): "Word-overlap similarity =
|intersection of lowercase word sets| / |union|", where a *word* is a
non-empty whitespace-separated token (§3, `wordCount`). -/

/-- Modelled from the spec: the set of lowercase *words* of a text, i.e.
its non-empty whitespace-separated tokens. -/
def specWords (t : String) : List (List Char) :=
  ((jsSplitWs (jsLower t.data)).filter (fun w => w ≠ [])).dedup

/-- Modelled from the spec: number of words (non-empty whitespace tokens). -/
def specWordCount (t : String) : Nat :=
  ((jsSplitWs t.data).filter (fun w => w ≠ [])).length

/-- Modelled from the spec: word-overlap similarity over lowercase word sets. -/
def specSimilarity (t1 t2 : String) : ℚ :=
  let w1 := specWords t1
  let w2 := specWords t2
  let inter := w1.filter (fun w => w ∈ w2)
  let union := (w1 ++ w2).dedup
  (inter.length : ℚ) / (union.length : ℚ)

/-- Modelled from the spec: the confidence formula of §4.2 step 5 read
with the spec's notion of word sets. -/
def specConfidenceFormula (o i : String) : ℚ :=
  jsMin 1 (0.7 +
    (if (((specWordCount i : Int) - (specWordCount o : Int)).natAbs : ℚ) /
        (specWordCount o : ℚ) > 0.1 then (0.1 : ℚ) else 0) +
    (if specSimilarity o i > 0.3 ∧ specSimilarity o i < 0.9 then (0.2 : ℚ) else 0))

/-! ### Backends -/

/-- The two interchangeable AI backends (`apiType` in the source). -/
inductive Backend
  | rewriter
  | prompt
deriving DecidableEq, Repr

/-- The string name of a backend as used in the source. -/
def Backend.name : Backend → String
  | .rewriter => "rewriter"
  | .prompt => "prompt"

/-- The alternate backend used by the fallback protocol. -/
def Backend.other : Backend → Backend
  | .rewriter => .prompt
  | .prompt => .rewriter

/-! ### `ChangeDetail` and `ClarityImprovement` (clarity-improvement.js) -/

/-- The raw data of a change record (corresponding to the fields of the
JavaScript `ChangeDetail` and of the plain change objects produced by
`AIService._generateChangeDetails`).  Positions are `Int` because the
source checks them for negativity. -/
structure ChangeRec where
  changeType : String
  originalPhrase : String
  improvedPhrase : String
  reason : String
  startPosition : Int
  endPosition : Int
deriving DecidableEq, Repr

/-- The `ChangeDetail` constructor together with `ChangeDetail._validate`:
each check throws (returns `.error`) in the source's order. -/
def mkChangeDetail (changeType originalPhrase improvedPhrase reason : String)
    (startPosition endPosition : Int) : Except String ChangeRec :=
  if changeType ∉ ["word-choice", "sentence-structure", "clarity", "conciseness"] then
    .error ("Invalid change type: " ++ changeType ++
      ". Must be one of: word-choice, sentence-structure, clarity, conciseness")
  else if originalPhrase = "" then
    .error "originalPhrase is required and must be a string"
  else if improvedPhrase = "" then
    .error "improvedPhrase is required and must be a string"
  else if originalPhrase = improvedPhrase then
    .error "originalPhrase and improvedPhrase must not be identical"
  else if reason = "" then
    .error "reason is required and must be a string"
  else if startPosition < 0 then
    .error "startPosition must be a non-negative number"
  else if endPosition < 0 then
    .error "endPosition must be a non-negative number"
  else if startPosition ≥ endPosition then
    .error "startPosition must be less than endPosition"
  else
    .ok ⟨changeType, originalPhrase, improvedPhrase, reason, startPosition, endPosition⟩

/-- A validated `ClarityImprovement` (the `apiParameters` and `timestamp`
fields play no role in any claim and are omitted). -/
structure ClarityImprovement where
  improvedText : String
  improvementType : String
  confidenceScore : ℚ
  changes : List ChangeRec
  processingTime : ℚ
deriving DecidableEq, Repr

/-- The `ClarityImprovement` constructor together with its `_validate`,
checks in the source's order.  (The "must be a `ChangeDetail` instance"
and "`apiParameters` must be an object" checks hold by typing.) -/
def mkClarityImprovement (improvedText improvementType : String) (confidenceScore : ℚ)
    (changes : List ChangeRec) (processingTime : ℚ) : Except String ClarityImprovement :=
  if improvedText = "" then
    .error "improvedText is required and must not be empty"
  else if improvementType ∉ ["rewriter", "prompt"] then
    .error "improvementType must be one of: rewriter, prompt"
  else if confidenceScore < 0 ∨ confidenceScore > 1 then
    .error "confidenceScore must be a number between 0 and 1"
  else if changes = [] then
    .error "changes array must contain at least one change"
  else if processingTime ≤ 0 then
    .error "processingTime must be a positive number"
  else
    .ok ⟨improvedText, improvementType, confidenceScore, changes, processingTime⟩

/-- Phrase truncation used by `AIService._generateChangeDetails`:
`text.length > 50 ? text.substring(0, 47) + '...' : text`. -/
def truncPhrase (s : String) : String :=
  if s.length > 50 then String.mk (s.data.take 47) ++ "..." else s

/-- `AIService._generateChangeDetails`: one whole-span clarity change when
the texts differ, the empty list when they are identical. -/
def generateChangeDetails (originalText improvedText : String) : List ChangeRec :=
  if originalText ≠ improvedText then
    [⟨"clarity", truncPhrase originalText, truncPhrase improvedText,
      "Overall clarity improvement", 0, (originalText.length : Int)⟩]
  else []

/-- A successful AI analysis response, as produced by
`AIService._analyzeWithRewriter` / `_analyzeWithPrompt`. -/
structure AIOk where
  improvedText : String
  confidenceScore : ℚ
  processingTime : ℚ
  apiUsed : Backend
  changes : List ChangeRec
deriving DecidableEq, Repr

/-- JavaScript `x || d` on a number: `0` is falsy. -/
def jsOrQ (x d : ℚ) : ℚ := if x = 0 then d else x

/-- `ClarityImprovement.createFromAIResponse` on a successful response:
synthesize a single whole-span clarity change when the response carries
none, otherwise validate each supplied change; then run the validating
constructor.  Exceptions from `ChangeDetail` construction propagate. -/
def createFromAIResponse (resp : AIOk) (originalText : String) :
    Except String ClarityImprovement :=
  if resp.changes.isEmpty then
    (mkChangeDetail "clarity" originalText resp.improvedText
        "Overall clarity improvement" 0 (originalText.length : Int)).bind fun cd =>
      mkClarityImprovement resp.improvedText resp.apiUsed.name
        (jsOrQ resp.confidenceScore 0.7) [cd] resp.processingTime
  else
    (resp.changes.mapM fun c =>
        mkChangeDetail c.changeType c.originalPhrase c.improvedPhrase c.reason
          c.startPosition c.endPosition).bind fun cds =>
      mkClarityImprovement resp.improvedText resp.apiUsed.name
        (jsOrQ resp.confidenceScore 0.7) cds resp.processingTime

/-! ### `TextContent` lifecycle state machine (text-content.js) -/

/-- The lifecycle states of a `TextContent` sample. -/
inductive TCState
  | created
  | analyzing
  | analyzed
  | accepted
  | rejected
deriving DecidableEq, Repr

/-- The state names used in the source's error messages. -/
def TCState.name : TCState → String
  | .created => "Created"
  | .analyzing => "Analyzing"
  | .analyzed => "Analyzed"
  | .accepted => "Accepted"
  | .rejected => "Rejected"

/-- `TextContent.setAnalyzing`: only from `Created`; otherwise throws and
the state is unchanged. -/
def setAnalyzing (s : TCState) : Except String TCState :=
  if s = .created then .ok .analyzing
  else .error ("Cannot transition to Analyzing from " ++ s.name)

/-- `TextContent.setAnalyzed`: only from `Analyzing`. -/
def setAnalyzed (s : TCState) : Except String TCState :=
  if s = .analyzing then .ok .analyzed
  else .error ("Cannot transition to Analyzed from " ++ s.name)

/-- `TextContent.setAccepted`: only from `Analyzed`. -/
def setAccepted (s : TCState) : Except String TCState :=
  if s = .analyzed then .ok .accepted
  else .error ("Cannot transition to Accepted from " ++ s.name)

/-- `TextContent.setRejected`: only from `Analyzed`. -/
def setRejected (s : TCState) : Except String TCState :=
  if s = .analyzed then .ok .rejected
  else .error ("Cannot transition to Rejected from " ++ s.name)

/-! ### `AIService.analyzeText` with its validation and fallback -/

/-- An AI parameter object: an insertion-ordered list of key/value pairs
(JavaScript object keys keep insertion order, which is what
`JSON.stringify` serializes). -/
abbrev Params := List (String × String)

/-- The environment a text-analysis call runs against.  `defined b` models
`typeof Rewriter/Prompt !== 'undefined'`; `invoke b text = some improved`
models a backend call (session creation plus rewrite/prompt) that
returns `improved`, while `none` models a call in which some step threw
(the source catches the exception and returns `null`).  `elapsed` is the
wall-clock duration reported for a successful call. -/
structure BackendEnv where
  defined : Backend → Bool
  invoke : Backend → String → Option String
  elapsed : ℚ

/-- One optional parameter check of `AIService._validateParameters`:
a missing or falsy (empty) value is skipped, otherwise the value must be
in the allowed list. -/
def paramFieldOk (ps : Params) (key : String) (allowed : List String) : Bool :=
  match ps.lookup key with
  | none => true
  | some v => v = "" || allowed.contains v

/-- `AIService._validateParameters`. -/
def validateParameters (ps : Params) : Except String Unit :=
  if ¬ paramFieldOk ps "tone" ["more-formal", "as-is", "more-casual"] then
    .error "Invalid tone parameter"
  else if ¬ paramFieldOk ps "length" ["shorter", "as-is", "longer"] then
    .error "Invalid length parameter"
  else .ok ()

/-- `AIService._validateAnalysisRequest` for a request with a string
`text` and a present `apiType`: empty text, then over-long text, then
the parameter checks, in the source's order. -/
def validateAnalysisRequest (text : String) (ps : Params) : Except String Unit :=
  if text = "" then .error "Text cannot be empty"
  else if text.length > 5000 then .error "TEXT_TOO_LONG"
  else validateParameters ps

/-- The value `AIService.analyzeText` resolves with: either a successful
analysis or the `{success:false, error:{code, message}}` shape built by
`_createErrorResponse`. -/
inductive AnalyzeResponse
  | ok (r : AIOk)
  | failure (code msg : String)
deriving DecidableEq, Repr

/-- The outcome of `AIService.analyzeText` as seen by its caller: a
returned response value, or a thrown (re-thrown) exception. -/
inductive AnalyzeOutcome
  | threw (msg : String)
  | response (r : AnalyzeResponse)
deriving DecidableEq, Repr

/-- `AIService._analyzeWithRewriter` / `_analyzeWithPrompt` against `env`:
`none` when the backend is not defined or any step threw, otherwise the
successful result with the heuristic confidence score and generated
change details, exactly as built in the source. -/
def attemptBackend (env : BackendEnv) (b : Backend) (text : String) : Option AIOk :=
  if env.defined b then
    (env.invoke b text).map fun improved =>
      { improvedText := improved
        confidenceScore := calculateConfidenceScore text improved
        processingTime := env.elapsed
        apiUsed := b
        changes := generateChangeDetails text improved }
  else none

/-- `AIService.analyzeText`, with an explicit trace of the backends whose
`_analyzeWith…` helper was entered (each entry starts with the
availability probe; session creation and invocation happen only inside
such an attempt).  Validation errors for empty and over-long text are
re-thrown; other validation errors become a `PROCESSING_ERROR` response;
a failed primary attempt triggers exactly one fallback attempt when
fallback is enabled, and total failure yields the `API_UNAVAILABLE`
response value. -/
def aiAnalyzeText (env : BackendEnv) (apiType : Backend) (fallbackEnabled : Bool)
    (text : String) (ps : Params) : AnalyzeOutcome × List Backend :=
  match validateAnalysisRequest text ps with
  | .error m =>
    if m = "Text cannot be empty" ∨ m = "TEXT_TOO_LONG" then (.threw m, [])
    else (.response (.failure "PROCESSING_ERROR" m), [])
  | .ok _ =>
    match attemptBackend env apiType text with
    | some r => (.response (.ok r), [apiType])
    | none =>
      if fallbackEnabled then
        match attemptBackend env apiType.other text with
        | some r => (.response (.ok { r with apiUsed := apiType.other }),
                     [apiType, apiType.other])
        | none => (.response (.failure "API_UNAVAILABLE"
                     "No AI APIs available for text analysis"),
                   [apiType, apiType.other])
      else (.response (.failure "API_UNAVAILABLE"
              "No AI APIs available for text analysis"), [apiType])

/-! ### Session cache (`AIService.createSession` / `_getOrCreateSession`) -/

/-- One entry of `this.sessions`.  `handle` stands for the opaque backend
session object, `sessionId` for the generated id. -/
structure SessionEntry where
  sessionId : Nat
  apiType : Backend
  parameters : Params
  handle : Nat
  createdAt : Nat
  lastUsed : Nat
deriving DecidableEq, Repr

/-- JSON string quoting (`JSON.stringify` on a string value). -/
def jsonQuote (s : String) : String :=
  "\"" ++ String.join (s.data.map fun c =>
    if c = '"' then "\\\"" else if c = '\\' then "\\\\" else String.mk [c]) ++ "\""

/-- `JSON.stringify` of a parameter object with string values: keys are
serialized in insertion order. -/
def jsonStringify (ps : Params) : String :=
  "\x7b" ++ String.intercalate ","
    (ps.map fun kv => jsonQuote kv.1 ++ ":" ++ jsonQuote kv.2) ++ "\x7d"

/-- The reuse test of `AIService._getOrCreateSession`: same `apiType` and
`JSON.stringify`-equal parameters.  `lastUsed` is deliberately not read. -/
def sessionMatches (b : Backend) (ps : Params) (e : SessionEntry) : Bool :=
  e.apiType == b && jsonStringify e.parameters == jsonStringify ps

/-- The session table (`this.sessions`, a `Map` iterated in insertion
order) together with the id generator state. -/
structure SessionTable where
  entries : List SessionEntry
  nextId : Nat
deriving DecidableEq, Repr

/-- Update `lastUsed` of the first matching entry (the mutation
`sessionData.lastUsed = Date.now()` performed on the entry found by the
scan). -/
def touchFirst (b : Backend) (ps : Params) (now : Nat) :
    List SessionEntry → List SessionEntry
  | [] => []
  | e :: es =>
    if sessionMatches b ps e then { e with lastUsed := now } :: es
    else e :: touchFirst b ps now es

/-- Availability environment for session creation: `available b` models
"the backend global is defined and its `create` call succeeds". -/
structure SessionEnv where
  available : Backend → Bool

/-- `AIService._getOrCreateSession`: scan the table in insertion order for
a matching entry; on a hit, touch `lastUsed` and return the stored
handle; on a miss, run `createSession`, which stores a fresh entry or
fails when the backend is unavailable (in which case
`_getOrCreateSession` throws).  The `Bool` component records whether a
new session was created. -/
def getOrCreateSession (env : SessionEnv) (b : Backend) (ps : Params) (now : Nat)
    (st : SessionTable) : Except String (Nat × SessionTable × Bool) :=
  match st.entries.find? (sessionMatches b ps) with
  | some e => .ok (e.handle, ⟨touchFirst b ps now st.entries, st.nextId⟩, false)
  | none =>
    if env.available b then
      let entry : SessionEntry := ⟨st.nextId, b, ps, st.nextId, now, now⟩
      .ok (st.nextId, ⟨st.entries ++ [entry], st.nextId + 1⟩, true)
    else .error ("Failed to create " ++ b.name ++ " session")

/-- Number of entries of a table matching a `(backend, parameters)` pair. -/
def countMatching (st : SessionTable) (b : Backend) (ps : Params) : Nat :=
  st.entries.countP (sessionMatches b ps)

/-- A session entry with its `lastUsed` field forgotten (used to state
that a call changed nothing but `lastUsed`). -/
def stripLastUsed (e : SessionEntry) : Nat × Backend × Params × Nat × Nat :=
  (e.sessionId, e.apiType, e.parameters, e.handle, e.createdAt)

/-! ### `TextAnalyzer` (text-analyzer.js) -/

/-- `this.maxHistorySize`. -/
def maxHistorySize : Nat := 10

/-- `TextAnalyzer._addToHistory`: `unshift` the new entry, then truncate
to the newest `maxHistorySize` entries. -/
def addToHistory {α : Type} (h : List α) (e : α) : List α :=
  (e :: h).take maxHistorySize

/-- The history after a sequence of analyses, starting from the empty
history of a fresh `TextAnalyzer`. -/
def runHistory {α : Type} (es : List α) : List α :=
  es.foldl addToHistory []

/-- Quality levels of `TextAnalyzer.assessAnalysisQuality`. -/
inductive Quality
  | poor
  | medium
  | good
deriving DecidableEq, Repr

/-- The fields of an analysis result read by `assessAnalysisQuality`. -/
structure AssessInput where
  originalText : String
  improvedText : String
  confidenceScore : ℚ
  processingTime : ℚ
  changes : List ChangeRec
deriving DecidableEq, Repr

/-- The length-change guard of `assessAnalysisQuality`, including the
JavaScript division corner cases: for an empty original text the ratio
is `NaN` (comparison false) when the improved text is also empty and
`Infinity` (comparison true) otherwise. -/
def significantLengthChange (r : AssessInput) : Bool :=
  if r.originalText.length = 0 then r.improvedText.length ≠ 0
  else
    decide ((((r.originalText.length : Int) - (r.improvedText.length : Int)).natAbs : ℚ) /
      (r.originalText.length : ℚ) > 0.5)

/-- `TextAnalyzer.assessAnalysisQuality`, embedded check by check in the
source's order; the quality level and the reasons list are accumulated
exactly as by the sequence of `if` statements. -/
def assessAnalysisQuality (r : AssessInput) : Quality × List String :=
  if r.improvedText = "" then (.poor, ["No improved text provided"])
  else
    let confPair : Quality × List String :=
      if r.confidenceScore < 0.6 then (.poor, ["Low confidence score"])
      else if r.confidenceScore < 0.8 then (.medium, ["Medium confidence score"])
      else (.good, [])
    let rs1 := confPair.2 ++ (if r.processingTime > 2000 then ["Slow processing time"] else [])
    let quality := if r.originalText = r.improvedText then Quality.poor else confPair.1
    let rs2 := rs1 ++ (if r.originalText = r.improvedText then ["No changes made to text"] else [])
    let rs3 := rs2 ++ (if r.changes.isEmpty then ["No specific changes documented"] else [])
    let rs4 := rs3 ++ (if significantLengthChange r then
      ["Significant length change - may have altered meaning"] else [])
    (quality, rs4)

/-- `TextAnalyzer.analyzeTextContent` on a sample in state `st` with the
given AI outcome: the state transitions, the `createFromAIResponse`
call, and the `catch` handler that calls `setRejected`, embedded with
explicit state passing.  The result pairs the sample's final state with
the returned `ClarityImprovement` or the propagated exception. -/
def analyzeTextContentModel (st : TCState) (origText : String) (ai : AnalyzeOutcome) :
    TCState × Except String ClarityImprovement :=
  if jsTrim origText.data = [] then (st, .error "Cannot analyze empty text content")
  else
    match setAnalyzing st with
    | .error e =>
      -- thrown inside the `try`; the handler calls `setRejected`
      match setRejected st with
      | .error e2 => (st, .error e2)
      | .ok st' => (st', .error e)
    | .ok st1 =>
      match ai with
      | .threw e =>
        match setRejected st1 with
        | .error e2 => (st1, .error e2)
        | .ok st' => (st', .error e)
      | .response (.failure _code msg) =>
        -- line 65: `textContent.setRejected()` before the `throw`;
        -- whatever it throws is then re-handled by the `catch`,
        -- which calls `setRejected` once more
        match setRejected st1 with
        | .error e2 =>
          match setRejected st1 with
          | .error e3 => (st1, .error e3)
          | .ok st' => (st', .error e2)
        | .ok st2 =>
          match setRejected st2 with
          | .error e3 => (st2, .error e3)
          | .ok st' => (st', .error msg)
      | .response (.ok resp) =>
        match createFromAIResponse resp origText with
        | .error e =>
          match setRejected st1 with
          | .error e2 => (st1, .error e2)
          | .ok st' => (st', .error e)
        | .ok ci =>
          match setAnalyzed st1 with
          | .error e =>
            match setRejected st1 with
            | .error e2 => (st1, .error e2)
            | .ok st' => (st', .error e)
          | .ok st2 => (st2, .ok ci)

/-- `TextAnalyzer._getDefaultParameters({})`: the parameters used when no
user preferences are supplied. -/
def defaultParameters : Params :=
  [("tone", "as-is"), ("length", "as-is"), ("format", "plain-text")]

/-- `TextAnalyzer.analyzeText(text, {})`: the entry-point validation, the
`TextContent` construction (state `Created`), and the call to
`analyzeTextContent` with the default request (`apiType = rewriter`,
fallback enabled).  The first component is the final lifecycle state of
the constructed sample (`Created` when validation failed before the
sample existed). -/
def analyzerAnalyzeText (env : BackendEnv) (text : String) :
    TCState × Except String ClarityImprovement :=
  if text = "" then (.created, .error "Text is required and must be a string")
  else if jsTrim text.data = [] then (.created, .error "Text cannot be empty")
  else if text.length > 5000 then
    (.created, .error "originalText maximum length is 5000 characters (based on AI model limits)")
  else
    analyzeTextContentModel .created text
      (aiAnalyzeText env .rewriter true text defaultParameters).1

/-! ### Concrete environments and parameter objects used in witnesses -/

/-- An environment in which both backends echo their input unchanged. -/
def echoEnv : BackendEnv := ⟨fun _ => true, fun _ t => some t, 5⟩

/-- An environment in which only the Prompt backend is defined; it appends
a question mark to its input. -/
def promptOnlyEnv : BackendEnv := ⟨fun b => b == .prompt, fun _ t => some (t ++ "?"), 5⟩

/-- An environment with no backend defined. -/
def deadEnv : BackendEnv := ⟨fun _ => false, fun _ _ => none, 0⟩

/-- A session environment in which both backends can create sessions. -/
def availEnv : SessionEnv := ⟨fun _ => true⟩

/-- A parameter object. -/
def paramsA : Params := [("tone", "as-is"), ("length", "as-is")]

/-- The same key/value pairs as `paramsA` in the other insertion order. -/
def paramsB : Params := [("length", "as-is"), ("tone", "as-is")]

/-! ### Helper lemmas -/

theorem jsMin_eq_min (a b : ℚ) : jsMin a b = min a b := by
  rw [jsMin]
  split_ifs with h
  · exact (min_eq_left h).symm
  · exact (min_eq_right (le_of_not_le h)).symm

theorem sessionMatches_iff (b : Backend) (ps : Params) (e : SessionEntry) :
    sessionMatches b ps e = true ↔
      e.apiType = b ∧ jsonStringify e.parameters = jsonStringify ps := by
  simp [sessionMatches]

theorem take_append_take {α : Type} (A B : List α) (n : Nat) :
    (A ++ B.take n).take n = (A ++ B).take n := by
  rw [List.take_append_eq_append_take, List.take_append_eq_append_take, List.take_take,
    Nat.min_eq_left (Nat.sub_le n A.length)]

theorem foldl_addToHistory {α : Type} (es : List α) :
    ∀ acc : List α, acc.length ≤ maxHistorySize →
      es.foldl addToHistory acc = (es.reverse ++ acc).take maxHistorySize := by
  induction es with
  | nil => intro acc h; simpa using (List.take_of_length_le h).symm
  | cons e es ih =>
    intro acc _
    rw [List.foldl_cons]
    have hlen : (addToHistory acc e).length ≤ maxHistorySize := by
      simp [addToHistory, List.length_take]
    rw [ih _ hlen]
    show (es.reverse ++ (e :: acc).take maxHistorySize).take maxHistorySize = _
    rw [take_append_take]
    simp

/-! ### Theorems for the claims -/

/-- C6: the analysis history is a bounded buffer of capacity
`maxHistorySize = 10` in newest-first order: after any sequence `es` of
analyses the history is the last ten entries in reverse order of
addition, so its length is `min n 10`, the most recent entry is at index
`0` (its `head?` is the last entry added), and the oldest `n - 10`
entries have been dropped. -/
theorem analysisHistory_bounded_newestFirst {α : Type} (es : List α) :
    runHistory es = es.reverse.take maxHistorySize ∧
    (runHistory es).length = min es.length maxHistorySize ∧
    (runHistory es).head? = es.getLast? ∧
    runHistory es = (es.drop (es.length - maxHistorySize)).reverse := by
  have h1 : runHistory es = es.reverse.take maxHistorySize := by
    unfold runHistory
    rw [foldl_addToHistory es [] (by simp)]
    simp
  refine ⟨h1, ?_, ?_, ?_⟩
  · rw [h1, List.length_take, List.length_reverse, Nat.min_comm]
  · rw [h1, List.head?_take, if_neg (by simp [maxHistorySize]), List.head?_reverse]
  · rw [h1, show es.reverse.take maxHistorySize = (es.rtake maxHistorySize).reverse from by
      rw [List.rtake_eq_reverse_take_reverse, List.reverse_reverse]]
    rw [List.rtake]

/-- The transition pairs admitted by the `TextContent` lifecycle. -/
def allowedTCTransitions : List (TCState × TCState) :=
  [(.created, .analyzing), (.analyzing, .analyzed), (.analyzed, .accepted),
   (.analyzed, .rejected)]

/-- C7: the `TextContent` lifecycle admits exactly the transitions
created→analyzing, analyzing→analyzed, analyzed→accepted and
analyzed→rejected: some transition method succeeds from `s` to `t` iff
`(s, t)` is in that list, and each method invoked in any other state
returns the invalid-state-transition error (leaving the state with the
caller unchanged). -/
theorem textContent_lifecycle :
    (∀ s t : TCState,
      (∃ m ∈ [setAnalyzing, setAnalyzed, setAccepted, setRejected], m s = Except.ok t) ↔
        (s, t) ∈ allowedTCTransitions) ∧
    (∀ s : TCState, s ≠ .created →
      setAnalyzing s = Except.error ("Cannot transition to Analyzing from " ++ s.name)) ∧
    (∀ s : TCState, s ≠ .analyzing →
      setAnalyzed s = Except.error ("Cannot transition to Analyzed from " ++ s.name)) ∧
    (∀ s : TCState, s ≠ .analyzed →
      setAccepted s = Except.error ("Cannot transition to Accepted from " ++ s.name)) ∧
    (∀ s : TCState, s ≠ .analyzed →
      setRejected s = Except.error ("Cannot transition to Rejected from " ++ s.name)) := by
  refine ⟨?_, ?_, ?_, ?_, ?_⟩
  · intro s t
    constructor
    · rintro ⟨m, hm, hok⟩
      simp only [List.mem_cons, List.not_mem_nil, or_false] at hm
      rcases hm with rfl | rfl | rfl | rfl
      all_goals
        cases s <;> simp_all [setAnalyzing, setAnalyzed, setAccepted, setRejected,
          allowedTCTransitions]
    · intro h
      simp only [allowedTCTransitions, List.mem_cons, List.not_mem_nil, or_false,
        Prod.mk.injEq] at h
      rcases h with ⟨rfl, rfl⟩ | ⟨rfl, rfl⟩ | ⟨rfl, rfl⟩ | ⟨rfl, rfl⟩
      · exact ⟨setAnalyzing, by simp, by simp [setAnalyzing]⟩
      · exact ⟨setAnalyzed, by simp, by simp [setAnalyzed]⟩
      · exact ⟨setAccepted, by simp, by simp [setAccepted]⟩
      · exact ⟨setRejected, by simp, by simp [setRejected]⟩
  · intro s h; cases s <;> simp_all [setAnalyzing, TCState.name]
  · intro s h; cases s <;> simp_all [setAnalyzed, TCState.name]
  · intro s h; cases s <;> simp_all [setAccepted, TCState.name]
  · intro s h; cases s <;> simp_all [setRejected, TCState.name]

/-- Witness for C7: applying the lifecycle theorem at the concrete state
`Analyzed` shows `setAnalyzing` fails there with the transition error. -/
theorem textContent_lifecycle_witness :
    setAnalyzing TCState.analyzed =
      Except.error "Cannot transition to Analyzing from Analyzed" :=
  textContent_lifecycle.2.1 TCState.analyzed (by decide)

/-- C8: in `assessAnalysisQuality`, a result whose improved text equals
its (non-empty) original text is rated `poor` regardless of the
confidence score and carries the no-changes reason; and a processing
time above 2000 ms only appends the slow-processing reason, leaving the
level (and every other reason) exactly as for the same result with a
fast processing time. -/
theorem assessQuality_noChange_and_slowTime (r : AssessInput)
    (h : r.improvedText ≠ "") :
    (r.improvedText = r.originalText →
      (assessAnalysisQuality r).1 = Quality.poor ∧
      "No changes made to text" ∈ (assessAnalysisQuality r).2) ∧
    (r.processingTime > 2000 →
      (assessAnalysisQuality r).1 =
        (assessAnalysisQuality { r with processingTime := 0 }).1 ∧
      "Slow processing time" ∈ (assessAnalysisQuality r).2 ∧
      (assessAnalysisQuality r).2.filter (fun s => s ≠ "Slow processing time") =
        (assessAnalysisQuality { r with processingTime := 0 }).2) := by
  constructor
  · intro he
    have ho : r.originalText = r.improvedText := he.symm
    simp only [assessAnalysisQuality, if_neg h, ho]
    split_ifs <;> simp
  · intro ht
    have ht0 : ¬ ((0 : ℚ) > 2000) := by norm_num
    simp only [assessAnalysisQuality, if_neg h, significantLengthChange, ht, ht0,
      if_true, if_false]
    split_ifs <;> simp_all

/-- Witness for C8: the no-change rule and the slow-processing rule at a
concrete result (`improvedText = originalText = "abc"`, confidence 0.9,
processing time 2500 ms). -/
theorem assessQuality_noChange_and_slowTime_witness :
    (assessAnalysisQuality ⟨"abc", "abc", 0.9, 2500, []⟩).1 = Quality.poor ∧
    "No changes made to text" ∈ (assessAnalysisQuality ⟨"abc", "abc", 0.9, 2500, []⟩).2 ∧
    "Slow processing time" ∈ (assessAnalysisQuality ⟨"abc", "abc", 0.9, 2500, []⟩).2 :=
  have h := assessQuality_noChange_and_slowTime ⟨"abc", "abc", 0.9, 2500, []⟩ (by decide)
  ⟨(h.1 rfl).1, (h.1 rfl).2, (h.2 (by norm_num)).2.1⟩

/-- C4: `AIService.analyzeText` rejects an empty text with the
empty-text error and an over-long text with `TEXT_TOO_LONG`; in both
cases the attempt trace is empty, i.e. no backend availability probe,
session creation or backend invocation has occurred. -/
theorem validation_fail_fast (env : BackendEnv) (b : Backend) (fb : Bool)
    (ps : Params) (text : String) :
    (text = "" →
      aiAnalyzeText env b fb text ps = (.threw "Text cannot be empty", [])) ∧
    (text.length > 5000 →
      aiAnalyzeText env b fb text ps = (.threw "TEXT_TOO_LONG", [])) := by
  constructor
  · rintro rfl
    rfl
  · intro hlen
    have hne : text ≠ "" := by
      intro he
      rw [he] at hlen
      exact absurd hlen (by decide)
    have hval : validateAnalysisRequest text ps = .error "TEXT_TOO_LONG" := by
      simp [validateAnalysisRequest, hne, hlen]
    simp [aiAnalyzeText, hval]

/-- Witness for C4: the empty text and a 5001-character text both fail
fast with an empty attempt trace. -/
theorem validation_fail_fast_witness :
    aiAnalyzeText echoEnv .rewriter true "" defaultParameters =
      (.threw "Text cannot be empty", []) ∧
    aiAnalyzeText echoEnv .rewriter true (String.mk (List.replicate 5001 'a'))
        defaultParameters = (.threw "TEXT_TOO_LONG", []) :=
  ⟨(validation_fail_fast echoEnv .rewriter true defaultParameters "").1 rfl,
   (validation_fail_fast echoEnv .rewriter true defaultParameters _).2 (by
     show (String.mk (List.replicate 5001 'a')).length > 5000
     simp only [String.length_mk, List.length_replicate]
     omega)⟩

/-- C3: when the primary backend attempt fails on a valid request and
fallback is enabled, the other backend is attempted exactly once: the
trace is `[primary, secondary]` (which contains the secondary exactly
once); if the secondary succeeds the returned result carries
`apiUsed = secondary`, and if it also fails `analyzeText` returns the
`API_UNAVAILABLE` failure response value instead of throwing, with no
further attempt. -/
theorem fallback_single_attempt (env : BackendEnv) (b : Backend) (text : String)
    (ps : Params) (hv : validateAnalysisRequest text ps = .ok ())
    (hp : attemptBackend env b text = none) :
    (∀ r, attemptBackend env b.other text = some r →
      aiAnalyzeText env b true text ps =
        (.response (.ok { r with apiUsed := b.other }), [b, b.other])) ∧
    (attemptBackend env b.other text = none →
      aiAnalyzeText env b true text ps =
        (.response (.failure "API_UNAVAILABLE" "No AI APIs available for text analysis"),
          [b, b.other])) ∧
    [b, b.other].count b.other = 1 := by
  refine ⟨?_, ?_, ?_⟩
  · intro r hr
    simp [aiAnalyzeText, hv, hp, hr]
  · intro h2
    simp [aiAnalyzeText, hv, hp, h2]
  · cases b <;> decide

/-- Witness for C3: with only the Prompt backend defined, a rewriter
request falls back to Prompt once and the result is tagged with the
prompt backend. -/
theorem fallback_single_attempt_witness :
    aiAnalyzeText promptOnlyEnv .rewriter true "hi" defaultParameters =
      (.response (.ok
        { improvedText := "hi?"
          confidenceScore := calculateConfidenceScore "hi" "hi?"
          processingTime := 5
          apiUsed := .prompt
          changes := generateChangeDetails "hi" "hi?" }),
        [.rewriter, .prompt]) ∧
    [Backend.rewriter, Backend.prompt].count Backend.prompt = 1 :=
  have h := fallback_single_attempt promptOnlyEnv .rewriter "hi" defaultParameters rfl rfl
  ⟨h.1 _ rfl, h.2.2⟩

/-- C10: session-cache reuse is `JSON.stringify` string matching:
`_getOrCreateSession` reuses a cached session (returns without creating)
iff some stored entry has the same `apiType` and `JSON.stringify`-equal
parameters; consequently two parameter objects with the same key/value
pairs in different insertion order (`paramsA`, `paramsB`) create two
distinct sessions. -/
theorem sessionCache_stringify_matching :
    (∀ (st : SessionTable) (env : SessionEnv) (b : Backend) (ps : Params) (now : Nat),
      (∃ h st', getOrCreateSession env b ps now st = .ok (h, st', false)) ↔
        ∃ e ∈ st.entries, e.apiType = b ∧
          jsonStringify e.parameters = jsonStringify ps) ∧
    (List.Perm paramsA paramsB ∧ paramsA ≠ paramsB ∧
      ∃ st1, getOrCreateSession availEnv .rewriter paramsA 0 ⟨[], 0⟩ =
          .ok (0, st1, true) ∧
        ∃ st2, getOrCreateSession availEnv .rewriter paramsB 1 st1 =
            .ok (1, st2, true) ∧ st2.entries.length = 2) := by
  constructor
  · intro st env b ps now
    constructor
    · rintro ⟨h, st', heq⟩
      cases hf : st.entries.find? (sessionMatches b ps) with
      | some e =>
        exact ⟨e, List.mem_of_find?_eq_some hf,
          (sessionMatches_iff b ps e).1 (List.find?_some hf)⟩
      | none =>
        simp only [getOrCreateSession, hf] at heq
        split_ifs at heq
        simp_all
    · rintro ⟨e, hmem, h1, h2⟩
      have hs : (st.entries.find? (sessionMatches b ps)).isSome :=
        List.find?_isSome.mpr ⟨e, hmem, (sessionMatches_iff b ps e).2 ⟨h1, h2⟩⟩
      obtain ⟨e', he'⟩ := Option.isSome_iff_exists.mp hs
      exact ⟨e'.handle, ⟨touchFirst b ps now st.entries, st.nextId⟩,
        by simp [getOrCreateSession, he']⟩
  · refine ⟨by decide, by decide, _, rfl, _, rfl, rfl⟩

theorem sessionMatches_touch (b : Backend) (ps : Params) (now : Nat) (e : SessionEntry) :
    sessionMatches b ps { e with lastUsed := now } = sessionMatches b ps e := rfl

theorem find?_touchFirst (b : Backend) (ps : Params) (now : Nat)
    (es : List SessionEntry) :
    (touchFirst b ps now es).find? (sessionMatches b ps) =
      (es.find? (sessionMatches b ps)).map (fun e => { e with lastUsed := now }) := by
  induction es with
  | nil => rfl
  | cons e es ih =>
    by_cases h : sessionMatches b ps e = true
    · have h' : sessionMatches b ps { e with lastUsed := now } = true := h
      simp only [touchFirst, if_pos h, List.find?_cons_of_pos _ h',
        List.find?_cons_of_pos _ h, Option.map_some']
    · have h' : ¬ sessionMatches b ps { e with lastUsed := now } = true := h
      simp only [touchFirst, if_neg h, List.find?_cons_of_neg _ h,
        List.find?_cons_of_neg _ h', ih]

theorem map_strip_touchFirst (b : Backend) (ps : Params) (now : Nat)
    (es : List SessionEntry) :
    (touchFirst b ps now es).map stripLastUsed = es.map stripLastUsed := by
  induction es with
  | nil => rfl
  | cons e es ih =>
    by_cases h : sessionMatches b ps e <;> simp [touchFirst, h, ih, stripLastUsed]

theorem countP_touchFirst (b : Backend) (ps : Params) (now : Nat)
    (es : List SessionEntry) :
    (touchFirst b ps now es).countP (sessionMatches b ps) =
      es.countP (sessionMatches b ps) := by
  induction es with
  | nil => rfl
  | cons e es ih =>
    by_cases h : sessionMatches b ps e <;>
      simp [touchFirst, h, List.countP_cons, ih, sessionMatches_touch]

/-- C5: calling `_getOrCreateSession` twice with the same
`(backend, parameters)` pair (on a well-formed table with at most one
matching entry, and with the backend available) returns the same handle
both times; the second call creates nothing — the table is unchanged
except for `lastUsed` fields and the id generator state is untouched —
and exactly one matching entry remains. -/
theorem session_getOrCreate_idempotent (env : SessionEnv) (b : Backend) (ps : Params)
    (t1 t2 : Nat) (st : SessionTable) (henv : env.available b = true)
    (hcount : countMatching st b ps ≤ 1) :
    ∃ h1 st1 c1, getOrCreateSession env b ps t1 st = .ok (h1, st1, c1) ∧
      ∃ st2, getOrCreateSession env b ps t2 st1 = .ok (h1, st2, false) ∧
        st2.entries.map stripLastUsed = st1.entries.map stripLastUsed ∧
        st2.nextId = st1.nextId ∧
        countMatching st2 b ps = 1 := by
  unfold countMatching at hcount ⊢
  cases hf : st.entries.find? (sessionMatches b ps) with
  | some e =>
    refine ⟨e.handle, ⟨touchFirst b ps t1 st.entries, st.nextId⟩, false,
      by simp [getOrCreateSession, hf], ?_⟩
    have hf2 : (touchFirst b ps t1 st.entries).find? (sessionMatches b ps) =
        some { e with lastUsed := t1 } := by
      rw [find?_touchFirst, hf]; rfl
    refine ⟨⟨touchFirst b ps t2 (touchFirst b ps t1 st.entries), st.nextId⟩,
      by simp [getOrCreateSession, hf2], ?_, rfl, ?_⟩
    · simp [map_strip_touchFirst]
    · show (touchFirst b ps t2 _).countP _ = 1
      rw [countP_touchFirst, countP_touchFirst]
      have hpos : 0 < st.entries.countP (sessionMatches b ps) :=
        List.countP_pos_iff.mpr
          ⟨e, List.mem_of_find?_eq_some hf, List.find?_some hf⟩
      omega
  | none =>
    have hmatch : sessionMatches b ps ⟨st.nextId, b, ps, st.nextId, t1, t1⟩ = true := by
      simp [sessionMatches]
    have hstep1 : getOrCreateSession env b ps t1 st =
        .ok (st.nextId,
          ⟨st.entries ++ [⟨st.nextId, b, ps, st.nextId, t1, t1⟩], st.nextId + 1⟩, true) := by
      simp only [getOrCreateSession, hf]
      rw [if_pos henv]
    have hf2 : (st.entries ++ [(⟨st.nextId, b, ps, st.nextId, t1, t1⟩ : SessionEntry)]).find?
        (sessionMatches b ps) = some ⟨st.nextId, b, ps, st.nextId, t1, t1⟩ := by
      rw [List.find?_append, hf]
      simp [hmatch]
    have hstep2 : getOrCreateSession env b ps t2
        (⟨st.entries ++ [⟨st.nextId, b, ps, st.nextId, t1, t1⟩], st.nextId + 1⟩ : SessionTable) =
        .ok (st.nextId,
          ⟨touchFirst b ps t2 (st.entries ++ [⟨st.nextId, b, ps, st.nextId, t1, t1⟩]),
            st.nextId + 1⟩, false) := by
      simp only [getOrCreateSession, hf2]
    have hcnt : (touchFirst b ps t2
        (st.entries ++ [(⟨st.nextId, b, ps, st.nextId, t1, t1⟩ : SessionEntry)])).countP
          (sessionMatches b ps) = 1 := by
      rw [countP_touchFirst, List.countP_append]
      have h0 : st.entries.countP (sessionMatches b ps) = 0 :=
        List.countP_eq_zero.mpr (List.find?_eq_none.mp hf)
      simp [h0, List.countP_cons, hmatch]
    exact ⟨st.nextId, _, true, hstep1, _, hstep2, by simp [map_strip_touchFirst], rfl, hcnt⟩

/-- Witness for C5: two calls with identical parameters on the empty
table return the same handle, leave one matching entry and do not touch
the id generator the second time. -/
theorem session_getOrCreate_idempotent_witness :
    ∃ h1 st1 c1, getOrCreateSession availEnv .rewriter defaultParameters 10 ⟨[], 0⟩ =
        .ok (h1, st1, c1) ∧
      ∃ st2, getOrCreateSession availEnv .rewriter defaultParameters 20 st1 =
          .ok (h1, st2, false) ∧
        st2.entries.map stripLastUsed = st1.entries.map stripLastUsed ∧
        st2.nextId = st1.nextId ∧
        countMatching st2 .rewriter defaultParameters = 1 :=
  session_getOrCreate_idempotent availEnv .rewriter defaultParameters 10 20 ⟨[], 0⟩
    rfl (by decide)

/-- Any failing analysis on a freshly created sample ends with the
`setRejected`-from-`Analyzing` transition error and the sample stuck in
`Analyzing`: the error handler's `setRejected` call itself throws and
replaces the original failure. -/
theorem analyzeTextContentModel_failure (text : String) (ai : AnalyzeOutcome)
    (ht : jsTrim text.data ≠ [])
    (hfail : (∃ e, ai = .threw e) ∨ (∃ c m, ai = .response (.failure c m)) ∨
      (∃ r e, ai = .response (.ok r) ∧ createFromAIResponse r text = .error e)) :
    analyzeTextContentModel .created text ai =
      (.analyzing, .error "Cannot transition to Rejected from Analyzing") := by
  rcases hfail with ⟨e, rfl⟩ | ⟨c, m, rfl⟩ | ⟨r, e, rfl, hcr⟩
  · simp [analyzeTextContentModel, if_neg ht, setAnalyzing, setRejected, TCState.name]
  · simp [analyzeTextContentModel, if_neg ht, setAnalyzing, setRejected, TCState.name]
  · simp [analyzeTextContentModel, if_neg ht, setAnalyzing, hcr, setRejected, TCState.name]

/-- C9: when the backend analysis fails while the sample is in state
`Analyzing` (a thrown backend error, an unsuccessful response, or an
exception from `createFromAIResponse` before `setAnalyzed`), the error
handler invokes `setRejected` on a sample in state `Analyzing`, so the
caller receives the state-transition error "Cannot transition to
Rejected from Analyzing" in place of the original failure, and the
sample stays in state `Analyzing`. -/
theorem analysisFailure_masked_by_setRejected (text : String) (ai : AnalyzeOutcome)
    (ht : jsTrim text.data ≠ [])
    (hfail : (∃ e, ai = .threw e) ∨ (∃ c m, ai = .response (.failure c m)) ∨
      (∃ r e, ai = .response (.ok r) ∧ createFromAIResponse r text = .error e)) :
    (analyzeTextContentModel .created text ai).1 = .analyzing ∧
    (analyzeTextContentModel .created text ai).2 =
      .error "Cannot transition to Rejected from Analyzing" := by
  rw [analyzeTextContentModel_failure text ai ht hfail]
  exact ⟨rfl, rfl⟩

/-- Witness for C9: a concrete unsuccessful AI response on the sample
`"hello"` yields the transition error and leaves the state `Analyzing`. -/
theorem analysisFailure_masked_by_setRejected_witness :
    (analyzeTextContentModel .created "hello"
        (.response (.failure "API_UNAVAILABLE" "No AI APIs available for text analysis"))).1 =
      .analyzing ∧
    (analyzeTextContentModel .created "hello"
        (.response (.failure "API_UNAVAILABLE" "No AI APIs available for text analysis"))).2 =
      .error "Cannot transition to Rejected from Analyzing" :=
  analysisFailure_masked_by_setRejected "hello" _ (by decide)
    (Or.inr (Or.inl ⟨_, _, rfl⟩))

/-- Counterexample for C1: with an echo backend, `analyzeText` on the
valid input `"hello world"` does not return a successful result at all —
the run ends in the invalid-state-transition error (the synthesized
whole-span change fails `ChangeDetail` validation on the way). -/
theorem echo_identicalText_counterexample :
    analyzerAnalyzeText echoEnv "hello world" =
      (.analyzing, .error "Cannot transition to Rejected from Analyzing") ∧
    ¬ ∃ ci, (analyzerAnalyzeText echoEnv "hello world").2 = .ok ci := by
  constructor
  · rfl
  · rintro ⟨ci, hci⟩
    rw [show (analyzerAnalyzeText echoEnv "hello world").2 =
      .error "Cannot transition to Rejected from Analyzing" from rfl] at hci
    exact Except.noConfusion hci

/-- C1 (amended): for every valid text (non-blank, length ≤ 5000), if the
rewriter backend echoes the input unchanged, the identical-text case IS
an error: `createFromAIResponse` synthesizes a whole-span `ChangeDetail`
whose phrases are identical, its validation throws, and the error
handler turns this into the invalid-state-transition error, so `analyze`
fails instead of returning a result. -/
theorem echo_identicalText_amended (env : BackendEnv) (text : String)
    (ht : jsTrim text.data ≠ []) (hlen : text.length ≤ 5000)
    (hdef : env.defined .rewriter = true)
    (hecho : env.invoke .rewriter text = some text) :
    analyzerAnalyzeText env text =
      (.analyzing, .error "Cannot transition to Rejected from Analyzing") := by
  have hne : text ≠ "" := fun he => ht (by rw [he]; rfl)
  have hnlen : ¬ text.length > 5000 := by omega
  have hvp : validateParameters defaultParameters = .ok () := rfl
  have hval : validateAnalysisRequest text defaultParameters = .ok () := by
    simp [validateAnalysisRequest, hne, hnlen, hvp]
  have hattempt : attemptBackend env .rewriter text = some
      { improvedText := text
        confidenceScore := calculateConfidenceScore text text
        processingTime := env.elapsed
        apiUsed := .rewriter
        changes := [] } := by
    simp [attemptBackend, hdef, hecho, generateChangeDetails]
  have hai : aiAnalyzeText env .rewriter true text defaultParameters =
      (.response (.ok
        { improvedText := text
          confidenceScore := calculateConfidenceScore text text
          processingTime := env.elapsed
          apiUsed := .rewriter
          changes := [] }), [.rewriter]) := by
    simp [aiAnalyzeText, hval, hattempt]
  have hcr : createFromAIResponse
      { improvedText := text
        confidenceScore := calculateConfidenceScore text text
        processingTime := env.elapsed
        apiUsed := .rewriter
        changes := [] } text =
      .error "originalPhrase and improvedPhrase must not be identical" := by
    simp [createFromAIResponse, mkChangeDetail, hne, Except.bind]
  show (if text = "" then _ else _) = _
  rw [if_neg hne, if_neg ht, if_neg hnlen, hai]
  exact analyzeTextContentModel_failure text _ ht
    (Or.inr (Or.inr ⟨_, _, rfl, hcr⟩))

/-- Witness for C1 (amended): the echo environment on `"hello world"`. -/
theorem echo_identicalText_amended_witness :
    analyzerAnalyzeText echoEnv "hello world" =
      (.analyzing, .error "Cannot transition to Rejected from Analyzing") :=
  echo_identicalText_amended echoEnv "hello world" (by decide) (by decide) rfl rfl

/-! Auxiliary results about the tokenizer, used to relate the code's
similarity (raw `split(/\s+/)` tokens) to the spec's word sets for texts
without boundary whitespace. -/

theorem toNat_ofNat_valid (n : Nat) (h : n.isValidChar) : (Char.ofNat n).toNat = n := by
  rw [Char.ofNat, dif_pos h]
  rfl

theorem isWhitespace_ofNat_lowerLetter (n : Nat) (h1 : 97 ≤ n) (h2 : n ≤ 122) :
    (Char.ofNat n).isWhitespace = false := by
  have hv : n.isValidChar := Or.inl (by omega)
  have ht : (Char.ofNat n).toNat = n := toNat_ofNat_valid n hv
  simp only [Char.isWhitespace, Bool.or_eq_false_iff, decide_eq_false_iff_not]
  refine ⟨⟨⟨?_, ?_⟩, ?_⟩, ?_⟩
  · intro e
    have h32 : n = (' ').toNat := by rw [← ht, e]
    rw [show (' ').toNat = 32 from rfl] at h32
    omega
  · intro e
    have h32 : n = ('\t').toNat := by rw [← ht, e]
    rw [show ('\t').toNat = 9 from rfl] at h32
    omega
  · intro e
    have h32 : n = ('\r').toNat := by rw [← ht, e]
    rw [show ('\r').toNat = 13 from rfl] at h32
    omega
  · intro e
    have h32 : n = ('\n').toNat := by rw [← ht, e]
    rw [show ('\n').toNat = 10 from rfl] at h32
    omega

theorem isWhitespace_toLower (c : Char) :
    (Char.toLower c).isWhitespace = c.isWhitespace := by
  by_cases h : c.toNat ≥ 65 ∧ c.toNat ≤ 90
  · obtain ⟨h1, h2⟩ := h
    rw [show Char.toLower c = Char.ofNat (c.toNat + 32) from by
      show (if c.toNat ≥ 65 ∧ c.toNat ≤ 90 then Char.ofNat (c.toNat + 32) else c) = _
      rw [if_pos ⟨h1, h2⟩]]
    have hns : c.isWhitespace = false := by
      simp only [Char.isWhitespace, Bool.or_eq_false_iff, decide_eq_false_iff_not]
      refine ⟨⟨⟨?_, ?_⟩, ?_⟩, ?_⟩ <;>
        (intro e; subst e; revert h1 h2; decide)
    have hl : (Char.ofNat (c.toNat + 32)).isWhitespace = false :=
      isWhitespace_ofNat_lowerLetter _ (by omega) (by omega)
    rw [hl, hns]
  · rw [show Char.toLower c = c from by
      show (if c.toNat ≥ 65 ∧ c.toNat ≤ 90 then Char.ofNat (c.toNat + 32) else c) = _
      rw [if_neg h]]

theorem lastNonWs_tail {c : Char} {rest : List Char}
    (h : ∀ x ∈ (c :: rest).getLast?, ¬ x.isWhitespace = true) :
    ∀ x ∈ rest.getLast?, ¬ x.isWhitespace = true := by
  cases rest with
  | nil => simp
  | cons r rs => rw [List.getLast?_cons_cons] at h; exact h

theorem splitWs_no_empty_aux :
    ∀ n : Nat, ∀ l : List Char, l.length ≤ n →
      ((∀ acc : List Char, acc ≠ [] →
          (∀ c ∈ l.getLast?, ¬ c.isWhitespace = true) → [] ∉ splitWsAux l acc) ∧
        (l ≠ [] → (∀ c ∈ l.getLast?, ¬ c.isWhitespace = true) →
          [] ∉ splitWsAfterWs l)) := by
  intro n
  induction n with
  | zero =>
    intro l hl
    have hnil : l = [] := List.length_eq_zero.mp (Nat.le_zero.mp hl)
    subst hnil
    constructor
    · intro acc hacc _ hmem
      rw [splitWsAux, List.mem_singleton] at hmem
      exact hacc (List.reverse_eq_nil_iff.mp hmem.symm)
    · intro h
      exact absurd rfl h
  | succ n ih =>
    intro l hl
    constructor
    · intro acc hacc hlast
      cases l with
      | nil =>
        intro hmem
        rw [splitWsAux, List.mem_singleton] at hmem
        exact hacc (List.reverse_eq_nil_iff.mp hmem.symm)
      | cons c rest =>
        have hlr : rest.length ≤ n := by simpa using hl
        by_cases hws : c.isWhitespace = true
        · have hrne : rest ≠ [] := by
            rintro rfl
            exact hlast c (by simp) hws
          rw [splitWsAux, if_pos hws]
          intro hmem
          rcases List.mem_cons.mp hmem with hmem | hmem
          · exact hacc (List.reverse_eq_nil_iff.mp hmem.symm)
          · exact (ih rest hlr).2 hrne (lastNonWs_tail hlast) hmem
        · rw [splitWsAux, if_neg hws]
          exact (ih rest hlr).1 (c :: acc) (by simp) (lastNonWs_tail hlast)
    · intro hne hlast
      cases l with
      | nil => exact absurd rfl hne
      | cons c rest =>
        have hlr : rest.length ≤ n := by simpa using hl
        by_cases hws : c.isWhitespace = true
        · have hrne : rest ≠ [] := by
            rintro rfl
            exact hlast c (by simp) hws
          rw [splitWsAfterWs, if_pos hws]
          exact (ih rest hlr).2 hrne (lastNonWs_tail hlast)
        · rw [splitWsAfterWs, if_neg hws]
          exact (ih rest hlr).1 [c] (by simp) (lastNonWs_tail hlast)

theorem jsSplitWs_no_empty (l : List Char) (hne : l ≠ [])
    (hhead : ∀ c ∈ l.head?, ¬ c.isWhitespace = true)
    (hlast : ∀ c ∈ l.getLast?, ¬ c.isWhitespace = true) :
    [] ∉ jsSplitWs l := by
  cases l with
  | nil => exact absurd rfl hne
  | cons c rest =>
    have hc : ¬ c.isWhitespace = true := hhead c (by simp)
    show [] ∉ splitWsAux (c :: rest) []
    rw [splitWsAux, if_neg hc]
    exact (splitWs_no_empty_aux rest.length rest le_rfl).1 [c] (by simp)
      (lastNonWs_tail hlast)

theorem dropWhile_head_not {p : Char → Bool} {l : List Char} (h : l.dropWhile p = l) :
    ∀ c ∈ l.head?, ¬ p c = true := by
  cases l with
  | nil => simp
  | cons c rest =>
    intro x hx
    rw [List.head?_cons, Option.mem_def, Option.some.injEq] at hx
    subst hx
    intro hpc
    rw [List.dropWhile_cons_of_pos hpc] at h
    have hle := ((List.dropWhile_suffix (l := rest) p).sublist).length_le
    rw [h, List.length_cons] at hle
    omega

theorem trim_eq_parts {l : List Char} (h : jsTrim l = l) :
    l.dropWhile Char.isWhitespace = l ∧
      l.reverse.dropWhile Char.isWhitespace = l.reverse := by
  have hlen : (jsTrim l).length = l.length := by rw [h]
  have hlen1 : (jsTrim l).length =
      ((l.dropWhile Char.isWhitespace).reverse.dropWhile Char.isWhitespace).length := by
    rw [jsTrim, List.length_reverse]
  have hle1 : ((l.dropWhile Char.isWhitespace).reverse.dropWhile Char.isWhitespace).length ≤
      (l.dropWhile Char.isWhitespace).length := by
    have := ((List.dropWhile_suffix
      (l := (l.dropWhile Char.isWhitespace).reverse) Char.isWhitespace).sublist).length_le
    simpa using this
  have hle2 : (l.dropWhile Char.isWhitespace).length ≤ l.length :=
    ((List.dropWhile_suffix (l := l) Char.isWhitespace).sublist).length_le
  have hA : l.dropWhile Char.isWhitespace = l :=
    (List.dropWhile_suffix Char.isWhitespace).eq_of_length (by omega)
  refine ⟨hA, ?_⟩
  rw [jsTrim, hA] at h
  have := congrArg List.reverse h
  rwa [List.reverse_reverse] at this

theorem head_last_nonWs_of_trimmed {l : List Char} (h : jsTrim l = l) :
    (∀ c ∈ l.head?, ¬ c.isWhitespace = true) ∧
      (∀ c ∈ l.getLast?, ¬ c.isWhitespace = true) := by
  obtain ⟨h1, h2⟩ := trim_eq_parts h
  refine ⟨dropWhile_head_not h1, ?_⟩
  have h3 := dropWhile_head_not h2
  intro c hc
  exact h3 c (by rwa [List.head?_reverse])

theorem data_ne_nil_of_ne_empty {t : String} (h : t ≠ "") : t.data ≠ [] := by
  intro hd
  apply h
  cases t
  simp_all

theorem no_empty_token_of_trimmed {t : String} (h : jsTrim t.data = t.data)
    (hne : t ≠ "") : [] ∉ jsSplitWs t.data :=
  jsSplitWs_no_empty t.data (data_ne_nil_of_ne_empty hne)
    (head_last_nonWs_of_trimmed h).1 (head_last_nonWs_of_trimmed h).2

theorem no_empty_token_lower_of_trimmed {t : String} (h : jsTrim t.data = t.data)
    (hne : t ≠ "") : [] ∉ jsSplitWs (jsLower t.data) := by
  obtain ⟨hh, hl⟩ := head_last_nonWs_of_trimmed h
  apply jsSplitWs_no_empty
  · simp [jsLower, data_ne_nil_of_ne_empty hne]
  · intro c hc
    rw [jsLower, List.head?_map] at hc
    obtain ⟨c', hc', rfl⟩ := Option.map_eq_some'.mp (Option.mem_def.mp hc)
    intro hws
    rw [isWhitespace_toLower] at hws
    exact hh c' hc' hws
  · intro c hc
    rw [jsLower, List.getLast?_map] at hc
    obtain ⟨c', hc', rfl⟩ := Option.map_eq_some'.mp (Option.mem_def.mp hc)
    intro hws
    rw [isWhitespace_toLower] at hws
    exact hl c' hc' hws

theorem specWordCount_eq_of_trimmed (t : String) (h : jsTrim t.data = t.data)
    (hne : t ≠ "") : specWordCount t = wordCountCode t := by
  unfold specWordCount wordCountCode
  rw [h, List.filter_eq_self.mpr]
  intro a ha
  rw [decide_eq_true_eq]
  exact fun hnil => no_empty_token_of_trimmed h hne (hnil ▸ ha)

theorem specWords_eq_of_trimmed (t : String) (h : jsTrim t.data = t.data)
    (hne : t ≠ "") : specWords t = (jsSplitWs (jsLower t.data)).dedup := by
  unfold specWords
  congr 1
  rw [List.filter_eq_self.mpr]
  intro a ha
  rw [decide_eq_true_eq]
  exact fun hnil => no_empty_token_lower_of_trimmed h hne (hnil ▸ ha)

theorem specSimilarity_eq_of_trimmed (o i : String) (ho : jsTrim o.data = o.data)
    (hi : jsTrim i.data = i.data) (hno : o ≠ "") (hni : i ≠ "") :
    specSimilarity o i = jsSimilarity o i := by
  unfold specSimilarity jsSimilarity
  rw [specWords_eq_of_trimmed o ho hno, specWords_eq_of_trimmed i hi hni]

unseal Rat.mul Rat.inv Rat.add Rat.sub Rat.ofScientific in
/-- Counterexample for C2: at the non-empty pair `("a b", " a b")` the
code's confidence is `0.9` while the claim's formula (with `s` computed
over lowercase word sets) yields `0.7` — the code's `split(/\s+/)` of
`" a b"` produces an extra empty-string token that enters the
similarity, which the claim's word sets do not contain. -/
theorem confidence_spec_formula_counterexample :
    calculateConfidenceScore "a b" " a b" = 9/10 ∧
    specConfidenceFormula "a b" " a b" = 7/10 ∧
    calculateConfidenceScore "a b" " a b" ≠ specConfidenceFormula "a b" " a b" := by
  refine ⟨by decide, by decide, by decide⟩

/-- C2 (amended): for every pair of non-empty texts the computed
confidence equals
`min(1, 0.7 + (0.1 if the word-count delta ratio > 0.1) + (0.2 if 0.3 < s < 0.9))`
where `s` is the word-overlap similarity over the token sets produced by
`split(/\s+/)` (these include an empty token when a text has leading or
trailing whitespace); the confidence is always in `[0, 1]`; and for
texts without leading or trailing whitespace the claim's original
formula over word sets holds exactly. -/
theorem confidence_heuristic_amended (o i : String) (ho : o ≠ "") (hi : i ≠ "") :
    calculateConfidenceScore o i =
      min 1 (0.7 + (if lengthRatioCode o i > 0.1 then (0.1 : ℚ) else 0) +
        (if jsSimilarity o i > 0.3 ∧ jsSimilarity o i < 0.9 then (0.2 : ℚ) else 0)) ∧
    0 ≤ calculateConfidenceScore o i ∧ calculateConfidenceScore o i ≤ 1 ∧
    (jsTrim o.data = o.data → jsTrim i.data = i.data →
      calculateConfidenceScore o i = specConfidenceFormula o i) := by
  have hne : ¬ (o = "" ∨ i = "") := by
    rintro (h | h)
    · exact ho h
    · exact hi h
  have hmain : calculateConfidenceScore o i =
      min 1 (0.7 + (if lengthRatioCode o i > 0.1 then (0.1 : ℚ) else 0) +
        (if jsSimilarity o i > 0.3 ∧ jsSimilarity o i < 0.9 then (0.2 : ℚ) else 0)) := by
    simp only [calculateConfidenceScore, if_neg hne, jsMin_eq_min]
    split_ifs <;> (rw [min_comm]; try norm_num)
  refine ⟨hmain, ?_, ?_, ?_⟩
  · rw [hmain]
    apply le_min
    · norm_num
    · split_ifs <;> norm_num
  · rw [hmain]
    exact min_le_left _ _
  · intro hto hti
    rw [hmain]
    simp only [specConfidenceFormula, jsMin_eq_min, lengthRatioCode,
      specWordCount_eq_of_trimmed o hto ho, specWordCount_eq_of_trimmed i hti hi,
      specSimilarity_eq_of_trimmed o i hto hti ho hi]

/-- Witness for C2 (amended): the pair `("ab", "cd")` (no boundary
whitespace); the code's confidence agrees with the claim's formula and
lies in `[0, 1]`. -/
theorem confidence_heuristic_amended_witness :
    calculateConfidenceScore "ab" "cd" =
      min 1 (0.7 + (if lengthRatioCode "ab" "cd" > 0.1 then (0.1 : ℚ) else 0) +
        (if jsSimilarity "ab" "cd" > 0.3 ∧ jsSimilarity "ab" "cd" < 0.9
          then (0.2 : ℚ) else 0)) ∧
    0 ≤ calculateConfidenceScore "ab" "cd" ∧ calculateConfidenceScore "ab" "cd" ≤ 1 ∧
    calculateConfidenceScore "ab" "cd" = specConfidenceFormula "ab" "cd" :=
  have h := confidence_heuristic_amended "ab" "cd" (by decide) (by decide)
  ⟨h.1, h.2.1, h.2.2.1, h.2.2.2 (by decide) (by decide)⟩

end IsItClear
